import Mathlib

/-!
Verification of the `pulsardb` repository: a shallow embedding of the
TOA-aggregation routines (`pulsardb/fromtim.py`, `tim2csv.py`) and of the
REST client module (`pulsardb/__init__.py`), with theorems settling the
frozen claims about them.

Conventions of the embedding:
* machine floats of the Python code are modelled as rationals (`ℚ`);
* a TOA's flags are modelled as two association lists: `flags` for
  string-valued flags (receiver/backend/project), and `fflags` for the
  numeric reading of a flag (the value that `get_flag_value(..., as_type=float)`
  yields), since the duration flag is only ever read numerically;
* `astropy` `Time`/`Quantity` arithmetic is unwrapped: times are MJDs in ℚ,
  durations are seconds in ℚ, frequencies are MHz in ℚ, and
  `Time + Quantity(s)` adds `s/86400` days.
-/

set_option autoImplicit false
set_option linter.unusedVariables false

namespace Pulsardb

/-- A single time-of-arrival measurement as read by `pint.toa.get_TOAs`.
The `name` flag is assumed present on every TOA (it is what
`toas.get_flag_value("name")[0]` reads and what the grouping uses). -/
structure TOA where
  name : String
  mjd : ℚ
  freq : ℚ
  flags : List (String × String)
  fflags : List (String × ℚ)
  deriving Repr, DecidableEq

/-- One row of the telescope capability table returned by
`pulsardb.Telescopes.get(format="table")`. -/
structure TelRow where
  name : String
  receivers : List String
  backends : List String
  deriving Repr, DecidableEq

/-- One output observation record (one CSV data row of `fromtim`). -/
structure Record where
  start : ℚ
  stop : ℚ
  pulsar : String
  project : Option String
  telescope : String
  receiver : Option String
  backend : Option String
  frequency : ℚ
  submitter : String
  deriving Repr, DecidableEq

/-- The keyword parameters of `pulsardb.fromtim.fromtim` (the pure,
record-producing part: `db`/`apikey` only control posting, not the records). -/
structure Config where
  pulsar : String
  submitter : String
  durationflag : String
  duration : ℚ
  receiverflag : String
  receiver : Option String
  backendflag : String
  backend : Option String
  projectflag : String
  project : Option String
  telescope : Option String
  deriving Repr, DecidableEq

/-- The command-line arguments of `tim2csv.py` (it has no `--telescope`
option: its telescope fallback is the literal `None` in the loop body). -/
structure Args where
  pulsar : String
  submitter : String
  durationflag : String
  duration : ℚ
  receiverflag : String
  receiver : Option String
  backendflag : String
  backend : Option String
  projectflag : String
  project : Option String
  deriving Repr, DecidableEq

/-- The loop variables of `fromtim` that survive from one iteration to the
next: the Python loop body rebinds `duration`, `receiver`, `backend`,
`project` and `telescope`, so the next iteration's fill values are these. -/
structure FillState where
  duration : ℚ
  receiver : Option String
  backend : Option String
  project : Option String
  telescope : Option String
  deriving Repr, DecidableEq

/-- Sum of a rational list. -/
def qSum (l : List ℚ) : ℚ := l.foldl (· + ·) 0

/-- `np.min` over a nonempty list (0 on the empty list, which the callers
never pass: every group contains the TOA its name came from). -/
def qMin : List ℚ → ℚ
  | [] => 0
  | x :: xs => xs.foldl min x

/-- `np.max` over a nonempty list (0 on the empty list, never passed). -/
def qMax : List ℚ → ℚ
  | [] => 0
  | x :: xs => xs.foldl max x

/-- `.mean()` of a column: sum divided by length. -/
def qMean (l : List ℚ) : ℚ := qSum l / l.length

/-- Value of a string-valued flag on one TOA. -/
def lookupS (t : TOA) (flag : String) : Option String :=
  (t.flags.find? (fun p => p.1 == flag)).map Prod.snd

/-- Numeric value of a flag on one TOA (the `as_type=float` reading). -/
def lookupF (t : TOA) (flag : String) : Option ℚ :=
  (t.fflags.find? (fun p => p.1 == flag)).map Prod.snd

/-- `names = np.array(toas.get_flag_value("name")[0])`. -/
def namesOf (toas : List TOA) : List String := toas.map TOA.name

/-- Lexicographic comparison of character lists by code point (the order
`np.unique` sorts strings in). -/
def strLeB : List Char → List Char → Bool
  | [], _ => true
  | _ :: _, [] => false
  | a :: as, b :: bs =>
      if a.val < b.val then true
      else if b.val < a.val then false
      else strLeB as bs

/-- Lexicographic string order by code point. -/
def strLe (a b : String) : Bool := strLeB a.data b.data

/-- `np.unique(names)`: the distinct names in sorted order. -/
def uniqueNames (toas : List TOA) : List String :=
  ((namesOf toas).insertionSort (fun a b => strLe a b = true)).dedup

/-- `select = names == name`: the TOAs of one observation group. -/
def groupOf (toas : List TOA) (name : String) : List TOA :=
  toas.filter (fun t => t.name == name)

/-- `list(telescopes[telescopes["name"] == telname]["receivers"])[0]` keeps
the first table row whose name matches. -/
def lookupRow (table : List TelRow) (telname : String) : Option TelRow :=
  table.find? (fun r => r.name == telname)

/-- Python's `x in lst` for an optional string against a list of strings
(`None in lst` is false for a list of strings). -/
def optMem (x : Option String) (l : List String) : Bool :=
  match x with
  | none => false
  | some s => s ∈ l

/-- The `if` condition of the telescope scan:
`receiver in row["receivers"] and backend in row["backends"]`. -/
def rowMatches (receiver backend : Option String) (row : TelRow) : Bool :=
  optMem receiver row.receivers && optMem backend row.backends

/-- The telescope-resolution scan of `fromtim` (lines 95-103) and of
`tim2csv.main` (lines 92-100): starting from the fallback `init`, iterate
over the name column; a name whose first row's receivers contain the
group's receiver and whose backends contain the group's backend overwrites
the current candidate. -/
def resolveTelescope (table : List TelRow) (receiver backend : Option String)
    (init : Option String) : Option String :=
  (table.map TelRow.name).foldl
    (fun tel telname =>
      match lookupRow table telname with
      | some row =>
          if rowMatches receiver backend row then some telname else tel
      | none => tel)
    init

/-- The duration values of a group: `get_flag_value(durationflag,
fill_value=duration, as_type=float)[0]`, one value per TOA with the current
fill for TOAs missing the flag. -/
def durVals (durationflag : String) (fill : ℚ) (g : List TOA) : List ℚ :=
  g.map (fun t => (lookupF t durationflag).getD fill)

/-- `get_flag_value(flag, fill_value=fill)[0][0]`: the flag value of the
group's first TOA, or the current fill when that TOA lacks the flag. -/
def firstFlag (flag : String) (fill : Option String) (g : List TOA) : Option String :=
  match g with
  | [] => fill
  | t :: _ =>
      match lookupS t flag with
      | some v => some v
      | none => fill

/-- The body of `fromtim`'s `for name in np.unique(names)` loop on one
group: computes frequency (mean of `freq`), start (min MJD), duration (sum
of the duration values, seconds), stop (`start + duration`, i.e. `+ dur/86400`
MJD), resolves receiver/backend/project from the first TOA with the current
fills, resets the telescope candidate to `defaulttelescope` (= `cfg.telescope`)
and scans the table; returns the rebound loop variables and the record
(`none` when the telescope stayed `None`: the record is only logged). -/
def processGroup (cfg : Config) (table : List TelRow) (st : FillState)
    (g : List TOA) : FillState × Option Record :=
  let frequency := qMean (g.map TOA.freq)
  let start := qMin (g.map TOA.mjd)
  let duration := qSum (durVals cfg.durationflag st.duration g)
  let stop := start + duration / 86400
  let receiver := firstFlag cfg.receiverflag st.receiver g
  let backend := firstFlag cfg.backendflag st.backend g
  let project := firstFlag cfg.projectflag st.project g
  let telescope := resolveTelescope table receiver backend cfg.telescope
  (⟨duration, receiver, backend, project, telescope⟩,
   telescope.map (fun tel =>
     ⟨start, stop, cfg.pulsar, project, tel, receiver, backend, frequency,
      cfg.submitter⟩))

/-- `FillState` at entry of the loop: the caller-supplied fallbacks. -/
def initState (cfg : Config) : FillState :=
  ⟨cfg.duration, cfg.receiver, cfg.backend, cfg.project, cfg.telescope⟩

/-- The loop of `fromtim`, annotated: for each unique name, the outcome
`(name, record?)`, threading the rebound fill state. -/
def fromtimGo (cfg : Config) (table : List TelRow) (toas : List TOA) :
    List String → FillState → List (String × Option Record)
  | [], _ => []
  | n :: ns, st =>
      let p := processGroup cfg table st (groupOf toas n)
      (n, p.2) :: fromtimGo cfg table toas ns p.1

/-- Per-name outcomes of `fromtim` on a file. -/
def groupOutcomes (cfg : Config) (table : List TelRow) (toas : List TOA) :
    List (String × Option Record) :=
  fromtimGo cfg table toas (uniqueNames toas) (initState cfg)

/-- The observation records `fromtim` emits (one per group whose telescope
resolved to a non-`None` value, in `np.unique` order). -/
def fromtimRecords (cfg : Config) (table : List TelRow) (toas : List TOA) :
    List Record :=
  (groupOutcomes cfg table toas).filterMap Prod.snd

/-- `f"{x}"` on an optional string: Python prints `None` for `None`. -/
def optStr : Option String → String
  | none => "None"
  | some s => s

/-- One CSV data row:
`f"{start.mjd}, {stop.mjd}, {pulsar}, {project}, {telescope}, {receiver}, {backend}, {frequency}, {submitter}\n"`
(rationals rendered by `toString`; the claims are about the row structure,
not Python float formatting). -/
def renderRecord (r : Record) : String :=
  toString r.start ++ ", " ++ toString r.stop ++ ", " ++ r.pulsar ++ ", " ++
    optStr r.project ++ ", " ++ r.telescope ++ ", " ++ optStr r.receiver ++
    ", " ++ optStr r.backend ++ ", " ++ toString r.frequency ++ ", " ++
    r.submitter ++ "\n"

/-- The header line of the output. -/
def header : String :=
  "# Start, Stop, Pulsar, Project, Telescope, Receiver, Backend, Frequency, Submitter\n"

/-- The string-building loop of `fromtim`: each iteration appends one row
when (and only when) its telescope resolved. -/
def fromtimGoStr (cfg : Config) (table : List TelRow) (toas : List TOA) :
    List String → FillState → String
  | [], _ => ""
  | n :: ns, st =>
      let p := processGroup cfg table st (groupOf toas n)
      (match p.2 with
       | some r => renderRecord r
       | none => "") ++ fromtimGoStr cfg table toas ns p.1

/-- The return value of `pulsardb.fromtim.fromtim`: the header followed by
the rows accumulated by the loop. -/
def fromtimOut (cfg : Config) (table : List TelRow) (toas : List TOA) : String :=
  header ++ fromtimGoStr cfg table toas (uniqueNames toas) (initState cfg)

/-- The body of `tim2csv.main`'s loop on one group. It differs from
`processGroup` in two ways: the duration is the `.max()` of the duration
values rather than their `.sum()`, and the fill values come from the fixed
`args` on every iteration (nothing is threaded; the telescope candidate is
reset to the literal `None`). -/
def processGroup2 (args : Args) (table : List TelRow) (g : List TOA) :
    Option Record :=
  let frequency := qMean (g.map TOA.freq)
  let start := qMin (g.map TOA.mjd)
  let duration := qMax (durVals args.durationflag args.duration g)
  let stop := start + duration / 86400
  let receiver := firstFlag args.receiverflag args.receiver g
  let backend := firstFlag args.backendflag args.backend g
  let project := firstFlag args.projectflag args.project g
  let telescope := resolveTelescope table receiver backend none
  telescope.map (fun tel =>
    ⟨start, stop, args.pulsar, project, tel, receiver, backend, frequency,
     args.submitter⟩)

/-- The observation records printed by `tim2csv.main` (one CSV row per
group whose telescope resolved). -/
def tim2csvRecords (args : Args) (table : List TelRow) (toas : List TOA) :
    List Record :=
  (uniqueNames toas).filterMap (fun n => processGroup2 args table (groupOf toas n))

/-! ### The REST client module `pulsardb/__init__.py`

HTTP traffic is modelled by oracles: each operation takes the response the
single `requests.get`/`requests.post` call it performs would return (one
response argument per request the code issues, so the embedding can issue
no retries). Response bodies and their JSON/pandas/table parses are kept
abstract: a `GetOut` value records which branch produced the return value
and which raw response it came from. -/

/-- An HTTP response as far as the client inspects it: `status_code` plus
an abstract body. -/
structure Resp where
  status : ℕ
  body : String
  deriving Repr, DecidableEq

/-- The module-level bindings of `pulsardb/__init__.py`: `_url`,
`_json_header`, `_api_key_name`, `API_KEY` and `_auth_header` (the last two
set at import from the environment). -/
structure ModuleState where
  url : String
  jsonHeader : List (String × String)
  apiKeyName : String
  apiKey : Option String
  authHeader : Option (List (String × String))
  deriving Repr, DecidableEq

/-- Module initialisation: `API_KEY`/`_auth_header` come from the
environment variable `PULSAR_API_KEY` when it is set, else both are `None`. -/
def initModule (envKey : Option String) : ModuleState :=
  { url := "http://localhost:8000/api/"
    jsonHeader := [("Accept", "application/json")]
    apiKeyName := "PULSAR_API_KEY"
    apiKey := envKey
    authHeader := envKey.map (fun k => [("Authorization", "Api-Key " ++ k)]) }

/-- Return value of a `get` classmethod: the parsed body in the requested
format, or the raw response when the status was not 200. -/
inductive GetOut where
  | json (r : Resp)
  | pandas (r : Resp)
  | table (r : Resp)
  | raw (r : Resp)
  deriving Repr, DecidableEq

/-- Python's `str.lower()` (character-wise lowercasing; the format names
are ASCII). Defined through the character list so the kernel can evaluate
it on concrete formats. -/
def pyLower (s : String) : String := String.mk (s.data.map Char.toLower)

/-- `assert format.lower() in ["json", "pandas", "table"]`. -/
def fmtValid (fmt : String) : Bool :=
  pyLower fmt ∈ ["json", "pandas", "table"]

/-- Shared body of the three `get` classmethods after the request: on
status 200 dispatch on the format, otherwise log a warning and fall through
to `return response`. The trailing `raw` branch inside the 200 case is
Python's final `return response`, unreachable once the assert has passed. -/
def getDispatch (fmt : String) (response : Resp) : GetOut :=
  if response.status = 200 then
    if pyLower fmt = "json" then .json response
    else if pyLower fmt = "pandas" then .pandas response
    else if pyLower fmt = "table" then .table response
    else .raw response
  else .raw response

/-- A query-parameter value (Python sends strings or numbers). -/
inductive PVal where
  | str (s : String)
  | num (q : ℚ)
  deriving Repr, DecidableEq

/-- `Pulsars.get`: asserts the format, sends one GET with `{"name": pulsar}`
when a pulsar filter is given, and dispatches on the response. -/
def pulsarsGet (pulsar : Option String) (fmt : String) (response : Resp) :
    Except String GetOut :=
  if fmtValid fmt then .ok (getDispatch fmt response)
  else .error "AssertionError"

/-- The query parameters `Pulsars.get` sends (its filter capability). -/
def pulsarsGetParams (pulsar : Option String) : List (String × PVal) :=
  match pulsar with
  | some p => [("name", .str p)]
  | none => []

/-- `Telescopes.get`: asserts the format, sends one GET (with no query
parameters: the call passes only `headers`), and dispatches on the response. -/
def telescopesGet (fmt : String) (response : Resp) : Except String GetOut :=
  if fmtValid fmt then .ok (getDispatch fmt response)
  else .error "AssertionError"

/-- The query parameters `Telescopes.get` sends: none (it has no filter
arguments at all). -/
def telescopesGetParams : List (String × PVal) := []

/-- A `min_time`/`max_time` argument of `Observations.get`: an astropy
`Time` (converted to its MJD) or a float/str passed through. -/
inductive TimeArg where
  | time (mjd : ℚ)
  | num (v : ℚ)
  | str (s : String)
  deriving Repr, DecidableEq

/-- Conversion of a time bound to the query value. -/
def timeParam : TimeArg → PVal
  | .time mjd => .num mjd
  | .num v => .num v
  | .str s => .str s

/-- A frequency argument: a `Quantity` (converted to its value in MHz) or a
float passed through. -/
inductive FreqArg where
  | quantity (mhz : ℚ)
  | num (v : ℚ)
  deriving Repr, DecidableEq

/-- Conversion of a frequency bound to the query value. -/
def freqParam : FreqArg → PVal
  | .quantity mhz => .num mhz
  | .num v => .num v

/-- The query parameters `Observations.get` sends: one entry per filter
argument that is not `None`, in the order the code adds them. -/
def observationsGetParams (pulsar telescope receiver backend project : Option String)
    (min_time max_time : Option TimeArg) (min_frequency max_frequency : Option FreqArg) :
    List (String × PVal) :=
  (match pulsar with | some p => [("pulsar", PVal.str p)] | none => []) ++
  (match telescope with | some t => [("telescope", PVal.str t)] | none => []) ++
  (match receiver with | some r => [("receiver", PVal.str r)] | none => []) ++
  (match backend with | some b => [("backend", PVal.str b)] | none => []) ++
  (match project with | some p => [("project", PVal.str p)] | none => []) ++
  (match min_time with | some t => [("min_MJD", timeParam t)] | none => []) ++
  (match max_time with | some t => [("max_MJD", timeParam t)] | none => []) ++
  (match min_frequency with | some f => [("min_frequency", freqParam f)] | none => []) ++
  (match max_frequency with | some f => [("max_frequency", freqParam f)] | none => [])

/-- `Observations.get`: asserts the format, sends one GET with the filter
parameters, and dispatches on the response. -/
def observationsGet (fmt : String) (response : Resp) : Except String GetOut :=
  if fmtValid fmt then .ok (getDispatch fmt response)
  else .error "AssertionError"

/-- The auth-header selection shared by the POSTs: an explicit `key`
argument wins, else the module's `_auth_header`. Only called when at least
one of the two is present. -/
def chooseAuth (st : ModuleState) (key : Option String) :
    Option (List (String × String)) :=
  match key with
  | some k => some [("Authorization", "Api-Key " ++ k)]
  | none => st.authHeader

/-- `Pulsars.post`: with neither `$PULSAR_API_KEY` nor `key=` it logs an
error and returns `None`; otherwise it POSTs the pulsar (logging on a
non-201 status but keeping the response), and when `aliases` is a non-empty
list it rebinds `response` to a list and appends one alias-POST response
per alias. `mainResp` is the oracle response of the pulsar POST and
`aliasResp a` that of the POST for alias `a`. -/
def pulsarsPost (st : ModuleState) (key : Option String) (name : String)
    (ra dec : ℚ) (aliases : Option (List String)) (mainResp : Resp)
    (aliasResp : String → Resp) : Option (Resp ⊕ List Resp) :=
  if st.authHeader = none ∧ key = none then none
  else
    match aliases with
    | some as =>
        if as.length > 0 then some (.inr (mainResp :: as.map aliasResp))
        else some (.inl mainResp)
    | none => some (.inl mainResp)

/-- A Python value passed as `start`/`stop` to `Observations.post` or to
`_convert_time`, classified by the `isinstance` chain it meets. -/
inductive TimeInput where
  | time (isot : String)
  | datetime (iso : String)
  | str (s : String)
  | float (mjd : ℚ)
  | int (mjd : ℤ)
  | noneV
  deriving Repr, DecidableEq

/-- The ISO string `_convert_time` produces, kept symbolic: which branch
made it and from what. -/
inductive IsoOut where
  | timeIsot (s : String)
  | dtIso (s : String)
  | parsedIsot (s : String)
  | mjdIsot (q : ℚ)
  deriving Repr, DecidableEq

/-- `_convert_time`: `Time → .isot`, `datetime → .isoformat()`,
`str → Time(t).isot`, `float → Time(t, format="mjd").isot`; any other input
falls off the `if/elif` chain, so Python returns `None`. -/
def convert_time : TimeInput → Option IsoOut
  | .time s => some (.timeIsot s)
  | .datetime s => some (.dtIso s)
  | .str s => some (.parsedIsot s)
  | .float m => some (.mjdIsot m)
  | .int _ => none
  | .noneV => none

/-- The JSON body `Observations.post` submits. -/
structure ObsContent where
  pulsar : String
  telescope : String
  receiver : String
  backend : String
  frequency : ℚ
  submitter : String
  project : String
  lower : Option IsoOut
  upper : Option IsoOut
  notes : String
  deriving Repr, DecidableEq

/-- `Observations.post`: with neither key it returns `None`; otherwise it
converts the time bounds with `_convert_time`, unwraps a `Quantity`
frequency to MHz, builds the content (a `None` conversion becomes a null
`datetime_range` bound), performs the single POST (`response` is its oracle
result) and returns the response after logging on a non-201 status. The
content is returned alongside so the submitted body can be inspected. -/
def observationsPost (st : ModuleState) (key : Option String)
    (pulsar telescope receiver backend : String) (frequency : FreqArg)
    (submitter project : String) (start stop : TimeInput) (notes : String)
    (response : Resp) : Option (ObsContent × Resp) :=
  if st.authHeader = none ∧ key = none then none
  else
    let tstart := convert_time start
    let tstop := convert_time stop
    let freq := match frequency with | .quantity mhz => mhz | .num v => v
    some (⟨pulsar, telescope, receiver, backend, freq, submitter, project,
           tstart, tstop, notes⟩, response)

/-- The classmethods defined on `Pulsars` (transcribed from the class body). -/
def pulsarsMethods : List String := ["get", "post"]

/-- The classmethods defined on `Telescopes` (transcribed from the class
body: only `get`). -/
def telescopesMethods : List String := ["get"]

/-- The classmethods defined on `Observations` (transcribed from the class
body). -/
def observationsMethods : List String := ["get", "post"]

/-! ### Module-state-passing forms of the five operations

None of the classmethods contains a `global` statement, so every assignment
in them is local; as state transformers they return the module state
unchanged. -/

/-- `Pulsars.get` as a transformer of the module state. -/
def pulsarsGetM (st : ModuleState) (pulsar : Option String) (fmt : String)
    (response : Resp) : ModuleState × Except String GetOut :=
  (st, pulsarsGet pulsar fmt response)

/-- `Telescopes.get` as a transformer of the module state. -/
def telescopesGetM (st : ModuleState) (fmt : String) (response : Resp) :
    ModuleState × Except String GetOut :=
  (st, telescopesGet fmt response)

/-- `Observations.get` as a transformer of the module state. -/
def observationsGetM (st : ModuleState) (fmt : String) (response : Resp) :
    ModuleState × Except String GetOut :=
  (st, observationsGet fmt response)

/-- `Pulsars.post` as a transformer of the module state. -/
def pulsarsPostM (st : ModuleState) (key : Option String) (name : String)
    (ra dec : ℚ) (aliases : Option (List String)) (mainResp : Resp)
    (aliasResp : String → Resp) : ModuleState × Option (Resp ⊕ List Resp) :=
  (st, pulsarsPost st key name ra dec aliases mainResp aliasResp)

/-- `Observations.post` as a transformer of the module state. -/
def observationsPostM (st : ModuleState) (key : Option String)
    (pulsar telescope receiver backend : String) (frequency : FreqArg)
    (submitter project : String) (start stop : TimeInput) (notes : String)
    (response : Resp) : ModuleState × Option (ObsContent × Resp) :=
  (st, observationsPost st key pulsar telescope receiver backend frequency
    submitter project start stop notes response)

/-! ### Claim-side definitions and concrete inputs -/

/-- The telescope resolution as the claim words it: the last matching row
in table order wins, else the caller-supplied default. Stated for
comparison with `resolveTelescope`, which is the code's scan. -/
def lastMatchResolve (table : List TelRow) (receiver backend : Option String)
    (d : Option String) : Option String :=
  match (table.filter (rowMatches receiver backend)).getLast? with
  | some row => some row.name
  | none => d

/-- Concatenation of rendered CSV rows, as the claim words the output body:
one row per emitted record, in order. -/
def concatRows : List Record → String
  | [] => ""
  | r :: rs => renderRecord r ++ concatRows rs

/-- The `Args` of `tim2csv` carrying the same caller-supplied values as a
`fromtim` `Config` (which additionally has a telescope fallback). -/
def argsOf (cfg : Config) : Args :=
  ⟨cfg.pulsar, cfg.submitter, cfg.durationflag, cfg.duration,
   cfg.receiverflag, cfg.receiver, cfg.backendflag, cfg.backend,
   cfg.projectflag, cfg.project⟩

/-- A concrete `fromtim` configuration with all defaults (no telescope
fallback). -/
def cfgX : Config :=
  ⟨"J0437-4715", "sub", "tobs", 1800, "fe", none, "be", none, "pta", none,
   none⟩

/-- A concrete one-telescope capability table. -/
def tableX : List TelRow := [⟨"GBT", ["Rcvr"], ["GUPPI"]⟩]

/-- A concrete tim file: one observation group of two TOAs, each carrying a
duration flag of 100 s and matching receiver/backend/project flags. -/
def toasX : List TOA :=
  [⟨"obs1", 59000, 1400, [("fe", "Rcvr"), ("be", "GUPPI"), ("pta", "NG")],
    [("tobs", 100)]⟩,
   ⟨"obs1", 59000 + 1 / 86400, 1400,
    [("fe", "Rcvr"), ("be", "GUPPI"), ("pta", "NG")], [("tobs", 100)]⟩]

/-- A concrete tim file with a single TOA carrying every flag. -/
def toasW : List TOA :=
  [⟨"obs1", 59000, 1400, [("fe", "Rcvr"), ("be", "GUPPI"), ("pta", "NG")],
    [("tobs", 100)]⟩]

/-- The record `fromtim` produces on `toasW` with `cfgX` and `tableX`. -/
def recW : Record :=
  ⟨59000, 59000 + 100 / 86400, "J0437-4715", some "NG", "GBT", some "Rcvr",
   some "GUPPI", 1400, "sub"⟩

/-- A capability table with two rows of the same telescope name: the first
matches nothing, the second matches receiver `R` / backend `B`. -/
def tableDup : List TelRow := [⟨"T", [], []⟩, ⟨"T", ["R"], ["B"]⟩]

/-- A capability table with distinct names where two rows match receiver
`R1` / backend `B1`. -/
def tableNodup : List TelRow :=
  [⟨"GBT", ["R1"], ["B1"]⟩, ⟨"AO", ["R1", "R2"], ["B1", "B2"]⟩]

/-! ### Helper lemmas -/

/-- With a valid format, the shared get dispatch yields the raw response
exactly when the status is not 200. -/
theorem getDispatch_raw_iff (fmt : String) (resp : Resp) (h : fmtValid fmt) :
    getDispatch fmt resp = .raw resp ↔ resp.status ≠ 200 := by
  unfold fmtValid at h
  simp only [List.mem_cons, List.mem_singleton, List.not_mem_nil, or_false,
    decide_eq_true_eq] at h
  unfold getDispatch
  by_cases h200 : resp.status = 200
  · simp only [h200, if_true, ne_eq, not_true_eq_false, iff_false]
    rcases h with h | h | h <;> simp [h]
  · simp [h200]

/-! ### Claims about the REST client -/

/-- C4: for the cited REST client operations, an HTTP failure is handled
only by returning the raw response: a `get` (of `Pulsars`, `Telescopes` or
`Observations`) returns the raw response exactly when the status is not
200; a POST returns the oracle response unchanged even when the status is
not 201; and a POST invoked with neither the environment API key nor a
`key=` argument returns `None`. Each operation consumes exactly one oracle
response per request, so no retry or recovery is modelled or performed. -/
theorem client_error_handling :
    (∀ (p : Option String) (fmt : String) (resp : Resp), fmtValid fmt →
      (pulsarsGet p fmt resp = .ok (.raw resp) ↔ resp.status ≠ 200)) ∧
    (∀ (fmt : String) (resp : Resp), fmtValid fmt →
      (telescopesGet fmt resp = .ok (.raw resp) ↔ resp.status ≠ 200)) ∧
    (∀ (fmt : String) (resp : Resp), fmtValid fmt →
      (observationsGet fmt resp = .ok (.raw resp) ↔ resp.status ≠ 200)) ∧
    (∀ (pu te re be : String) (fr : FreqArg) (su pr : String)
       (t1 t2 : TimeInput) (no : String) (resp : Resp),
      observationsPost (initModule none) none pu te re be fr su pr t1 t2 no resp
        = none) ∧
    (∀ (na : String) (ra dec : ℚ) (al : Option (List String)) (m : Resp)
       (ar : String → Resp),
      pulsarsPost (initModule none) none na ra dec al m ar = none) ∧
    (∀ (st : ModuleState) (key : Option String),
      ¬(st.authHeader = none ∧ key = none) →
      ∀ (pu te re be : String) (fr : FreqArg) (su pr : String)
        (t1 t2 : TimeInput) (no : String) (resp : Resp), resp.status ≠ 201 →
        (observationsPost st key pu te re be fr su pr t1 t2 no resp).map
          Prod.snd = some resp) ∧
    (∀ (st : ModuleState) (key : Option String),
      ¬(st.authHeader = none ∧ key = none) →
      ∀ (na : String) (ra dec : ℚ) (m : Resp) (ar : String → Resp),
        m.status ≠ 201 →
        pulsarsPost st key na ra dec none m ar = some (.inl m)) := by
  refine ⟨?_, ?_, ?_, ?_, ?_, ?_, ?_⟩
  · intro p fmt resp h
    simp only [pulsarsGet, h, if_true, Except.ok.injEq]
    exact getDispatch_raw_iff fmt resp h
  · intro fmt resp h
    simp only [telescopesGet, h, if_true, Except.ok.injEq]
    exact getDispatch_raw_iff fmt resp h
  · intro fmt resp h
    simp only [observationsGet, h, if_true, Except.ok.injEq]
    exact getDispatch_raw_iff fmt resp h
  · intro pu te re be fr su pr t1 t2 no resp
    simp [observationsPost, initModule]
  · intro na ra dec al m ar
    simp [pulsarsPost, initModule]
  · intro st key h pu te re be fr su pr t1 t2 no resp _
    simp [observationsPost, h]
  · intro st key h na ra dec m ar _
    simp [pulsarsPost, h]

/-- Witness for C4 at concrete inputs: a 404 GET returns the raw response,
a 200 GET does not, and a keyed POST with a 400 response returns that
response unchanged. -/
theorem client_error_handling_witness :
    (pulsarsGet none "json" ⟨404, "nf"⟩ = .ok (.raw ⟨404, "nf"⟩)) ∧
    ¬(telescopesGet "table" ⟨200, "ok"⟩ = .ok (.raw ⟨200, "ok"⟩)) ∧
    ((observationsPost (initModule (some "K")) none "J0437" "GBT" "Rcvr"
        "GUPPI" (.num 1400) "sub" "NG" (.float 59000) (.float 59001) ""
        ⟨400, "bad"⟩).map Prod.snd = some ⟨400, "bad"⟩) := by
  refine ⟨?_, ?_, ?_⟩
  · exact (client_error_handling.1 none "json" ⟨404, "nf"⟩ (by decide)).mpr
      (by decide)
  · intro hc
    have h2 := (client_error_handling.2.1 "table" ⟨200, "ok"⟩ (by decide)).mp hc
    exact h2 rfl
  · exact client_error_handling.2.2.2.2.2.1 (initModule (some "K")) none
      (by simp [initModule]) "J0437" "GBT" "Rcvr" "GUPPI" (.num 1400) "sub"
      "NG" (.float 59000) (.float 59001) "" ⟨400, "bad"⟩ (by decide)

/-- C9: `Pulsars.post` returns a single response when `aliases` is `None`
or empty, and a list (the pulsar-creation response followed by one response
per alias) when `aliases` is non-empty; the alias POSTs appear in the
output even when the pulsar-creation response's status is not 201. -/
theorem pulsarsPost_alias_shape :
    ∀ (st : ModuleState) (key : Option String),
      ¬(st.authHeader = none ∧ key = none) →
      ∀ (na : String) (ra dec : ℚ) (m : Resp) (ar : String → Resp),
        pulsarsPost st key na ra dec none m ar = some (.inl m) ∧
        pulsarsPost st key na ra dec (some []) m ar = some (.inl m) ∧
        (∀ (as : List String), as ≠ [] →
          pulsarsPost st key na ra dec (some as) m ar =
            some (.inr (m :: as.map ar))) ∧
        (∀ (as : List String), as ≠ [] → m.status ≠ 201 →
          pulsarsPost st key na ra dec (some as) m ar =
            some (.inr (m :: as.map ar))) := by
  intro st key h na ra dec m ar
  refine ⟨by simp [pulsarsPost, h], by simp [pulsarsPost, h], ?_, ?_⟩
  · intro as hne
    have : 0 < as.length := List.length_pos.mpr hne
    simp [pulsarsPost, h, this]
  · intro as hne _
    have : 0 < as.length := List.length_pos.mpr hne
    simp [pulsarsPost, h, this]

/-- Witness for C9: concrete POSTs with and without aliases, the former
with a failed (status 400) pulsar-creation response whose alias response
still appears. -/
theorem pulsarsPost_alias_shape_witness :
    pulsarsPost (initModule (some "K")) none "J1909-3744" 287 (-37)
        (some ["B1909"]) ⟨400, "bad"⟩ (fun _ => ⟨201, "ok"⟩) =
      some (.inr [⟨400, "bad"⟩, ⟨201, "ok"⟩]) ∧
    pulsarsPost (initModule (some "K")) none "J1909-3744" 287 (-37) none
        ⟨201, "ok"⟩ (fun _ => ⟨201, "ok"⟩) = some (.inl ⟨201, "ok"⟩) := by
  constructor
  · exact (pulsarsPost_alias_shape (initModule (some "K")) none
      (by simp [initModule]) "J1909-3744" 287 (-37) ⟨400, "bad"⟩
      (fun _ => ⟨201, "ok"⟩)).2.2.2 ["B1909"] (by decide) (by decide)
  · exact (pulsarsPost_alias_shape (initModule (some "K")) none
      (by simp [initModule]) "J1909-3744" 287 (-37) ⟨201, "ok"⟩
      (fun _ => ⟨201, "ok"⟩)).1

/-- C10: `_convert_time` produces a value for `Time`, `datetime`, `str` and
`float` inputs only; every other input (an `int` MJD, `None`) falls off the
`if/elif` chain and yields `None`, and `Observations.post` then submits a
null lower/upper `datetime_range` bound instead of raising. -/
theorem convert_time_partiality :
    (∀ s, convert_time (.time s) = some (.timeIsot s)) ∧
    (∀ s, convert_time (.datetime s) = some (.dtIso s)) ∧
    (∀ s, convert_time (.str s) = some (.parsedIsot s)) ∧
    (∀ q, convert_time (.float q) = some (.mjdIsot q)) ∧
    (∀ m, convert_time (.int m) = none) ∧
    convert_time .noneV = none ∧
    (∀ (k : String) (pu te re be : String) (fr : FreqArg) (su pr : String)
       (m1 m2 : ℤ) (no : String) (resp : Resp),
      (observationsPost (initModule (some k)) none pu te re be fr su pr
          (.int m1) (.int m2) no resp).map
        (fun p => (p.1.lower, p.1.upper)) = some (none, none)) := by
  refine ⟨fun s => rfl, fun s => rfl, fun s => rfl, fun q => rfl,
    fun m => rfl, rfl, ?_⟩
  intro k pu te re be fr su pr m1 m2 no resp
  simp [observationsPost, initModule, convert_time]

/-- C6 counterexample: `Telescopes` exposes no create operation (its class
body defines only `get`) and its `get` sends no filter parameters, so the
client does not expose list, filter and create for all three resources. -/
theorem telescopes_no_create_no_filter :
    "post" ∉ telescopesMethods ∧ telescopesGetParams = [] := by
  decide

/-- C6 amended: the client exposes list, filter and create for pulsars and
observations (both classes define `get` and `post`, and their `get`s send a
query parameter per supplied filter), while for telescopes it exposes only
list: `Telescopes` defines only `get`, which takes no filter arguments and
sends no query parameters. -/
theorem client_operation_surface :
    pulsarsMethods = ["get", "post"] ∧
    observationsMethods = ["get", "post"] ∧
    telescopesMethods = ["get"] ∧
    pulsarsGetParams (some "J0437-4715") = [("name", .str "J0437-4715")] ∧
    pulsarsGetParams none = [] ∧
    observationsGetParams (some "J0437-4715") none none none none none none
        none none = [("pulsar", .str "J0437-4715")] ∧
    observationsGetParams none none none none none (some (.time 59000))
        none (some (.quantity 1400)) none =
      [("min_MJD", .num 59000), ("min_frequency", .num 1400)] ∧
    telescopesGetParams = [] := by
  decide

/-- C7 counterexample: the module keeps behaviour-affecting module-level
state beyond the configuration URL: two module states with the same `_url`
but different import-time `_auth_header`/`API_KEY` make `Observations.post`
return `None` in one and a response in the other. -/
theorem module_state_beyond_url :
    (initModule none).url = (initModule (some "K")).url ∧
    initModule none ≠ initModule (some "K") ∧
    observationsPost (initModule none) none "J0437-4715" "GBT" "Rcvr" "GUPPI"
        (.num 1400) "sub" "NG" (.float 59000) (.float 59001) "" ⟨201, "ok"⟩
      = none ∧
    observationsPost (initModule (some "K")) none "J0437-4715" "GBT" "Rcvr"
        "GUPPI" (.num 1400) "sub" "NG" (.float 59000) (.float 59001) ""
        ⟨201, "ok"⟩ ≠ none := by
  refine ⟨rfl, by decide, by simp [observationsPost, initModule], ?_⟩
  simp [observationsPost, initModule]

/-- C7 amended: the module-level state is the configuration URL together
with constants fixed at import (the JSON accept header, the API-key
variable name, and the API key / auth header read once from the
environment), and no client operation modifies any module-level variable:
each of the five operations, as a module-state transformer, returns the
state unchanged. -/
theorem client_ops_preserve_module_state :
    ∀ (st : ModuleState) (p : Option String) (fmt : String) (resp : Resp)
      (key : Option String) (na : String) (ra dec : ℚ)
      (al : Option (List String)) (m : Resp) (ar : String → Resp)
      (pu te re be : String) (fr : FreqArg) (su pr : String)
      (t1 t2 : TimeInput) (no : String),
      (pulsarsGetM st p fmt resp).1 = st ∧
      (telescopesGetM st fmt resp).1 = st ∧
      (observationsGetM st fmt resp).1 = st ∧
      (pulsarsPostM st key na ra dec al m ar).1 = st ∧
      (observationsPostM st key pu te re be fr su pr t1 t2 no resp).1 = st := by
  intros
  exact ⟨rfl, rfl, rfl, rfl, rfl⟩

/-! ### Helper lemmas about the aggregation loops -/

/-- Membership in `np.unique(names)` is membership in the name column. -/
theorem mem_uniqueNames (toas : List TOA) (n : String) :
    n ∈ uniqueNames toas ↔ n ∈ namesOf toas := by
  unfold uniqueNames
  rw [List.mem_dedup]
  exact (List.perm_insertionSort _ (namesOf toas)).mem_iff

/-- A group selected by a name from the name column is nonempty. -/
theorem groupOf_ne_nil (toas : List TOA) (n : String) (h : n ∈ namesOf toas) :
    groupOf toas n ≠ [] := by
  unfold namesOf at h
  rcases List.mem_map.mp h with ⟨t, ht, rfl⟩
  exact List.ne_nil_of_mem (List.mem_filter.mpr ⟨ht, by simp⟩)

/-- Every outcome of the `fromtim` loop belongs to a processed name and was
produced by `processGroup` on that name's group under some fill state. -/
theorem fromtimGo_mem (cfg : Config) (table : List TelRow) (toas : List TOA) :
    ∀ (ns : List String) (st : FillState) (p : String × Option Record),
      p ∈ fromtimGo cfg table toas ns st →
      p.1 ∈ ns ∧ ∃ st', p.2 = (processGroup cfg table st' (groupOf toas p.1)).2 := by
  intro ns
  induction ns with
  | nil => intro st p h; simp [fromtimGo] at h
  | cons n ns ih =>
      intro st p h
      simp only [fromtimGo, List.mem_cons] at h
      rcases h with h | h
      · subst h
        exact ⟨List.mem_cons_self n ns, st, rfl⟩
      · rcases ih _ p h with ⟨h1, st', h2⟩
        exact ⟨List.mem_cons_of_mem n h1, st', h2⟩

/-- The fields of a record emitted by `processGroup`. -/
theorem processGroup_some_fields (cfg : Config) (table : List TelRow)
    (st : FillState) (g : List TOA) (r : Record)
    (h : (processGroup cfg table st g).2 = some r) :
    r.frequency = qMean (g.map TOA.freq) ∧
    r.start = qMin (g.map TOA.mjd) ∧
    r.stop = qMin (g.map TOA.mjd) +
      qSum (durVals cfg.durationflag st.duration g) / 86400 ∧
    r.pulsar = cfg.pulsar ∧ r.submitter = cfg.submitter ∧
    r.receiver = firstFlag cfg.receiverflag st.receiver g ∧
    r.backend = firstFlag cfg.backendflag st.backend g ∧
    r.project = firstFlag cfg.projectflag st.project g ∧
    resolveTelescope table (firstFlag cfg.receiverflag st.receiver g)
      (firstFlag cfg.backendflag st.backend g) cfg.telescope =
      some r.telescope := by
  simp only [processGroup] at h
  rcases Option.map_eq_some'.mp h with ⟨tel, htel, hr⟩
  subst hr
  exact ⟨rfl, rfl, rfl, rfl, rfl, rfl, rfl, rfl, htel⟩

/-- The fields of a record emitted by `processGroup2`. -/
theorem processGroup2_some_fields (args : Args) (table : List TelRow)
    (g : List TOA) (r : Record)
    (h : processGroup2 args table g = some r) :
    r.frequency = qMean (g.map TOA.freq) ∧
    r.start = qMin (g.map TOA.mjd) ∧
    r.stop = qMin (g.map TOA.mjd) +
      qMax (durVals args.durationflag args.duration g) / 86400 := by
  simp only [processGroup2] at h
  rcases Option.map_eq_some'.mp h with ⟨tel, htel, hr⟩
  subst hr
  exact ⟨rfl, rfl, rfl⟩

/-- A record of `fromtim` comes from some unique name's group. -/
theorem mem_fromtimRecords (cfg : Config) (table : List TelRow)
    (toas : List TOA) (r : Record) (h : r ∈ fromtimRecords cfg table toas) :
    ∃ name st, name ∈ uniqueNames toas ∧
      (processGroup cfg table st (groupOf toas name)).2 = some r := by
  unfold fromtimRecords groupOutcomes at h
  rcases List.mem_filterMap.mp h with ⟨p, hp, hp2⟩
  rcases fromtimGo_mem cfg table toas _ _ p hp with ⟨h1, st', h2⟩
  exact ⟨p.1, st', h1, h2 ▸ hp2⟩

/-- `processGroup` emits no record exactly when the telescope scan stayed
at `None`. -/
theorem processGroup_none_iff (cfg : Config) (table : List TelRow)
    (st : FillState) (g : List TOA) :
    (processGroup cfg table st g).2 = none ↔
      resolveTelescope table (firstFlag cfg.receiverflag st.receiver g)
        (firstFlag cfg.backendflag st.backend g) cfg.telescope = none := by
  simp only [processGroup]
  exact Option.map_eq_none'

/-- The string the `fromtim` loop accumulates is the concatenation of the
rendered emitted records. -/
theorem fromtimGoStr_eq (cfg : Config) (table : List TelRow) (toas : List TOA) :
    ∀ (ns : List String) (st : FillState),
      fromtimGoStr cfg table toas ns st =
        concatRows ((fromtimGo cfg table toas ns st).filterMap Prod.snd) := by
  intro ns
  induction ns with
  | nil => intro st; rfl
  | cons n ns ih =>
      intro st
      simp only [fromtimGoStr, fromtimGo, List.filterMap_cons]
      cases h2 : (processGroup cfg table st (groupOf toas n)).2 with
      | none => simpa [h2] using ih _
      | some r => simp [h2, concatRows, ih _]

/-- The `fromtim` loop produces one outcome per processed name, in order. -/
theorem fromtimGo_names (cfg : Config) (table : List TelRow) (toas : List TOA) :
    ∀ (ns : List String) (st : FillState),
      (fromtimGo cfg table toas ns st).map Prod.fst = ns := by
  intro ns
  induction ns with
  | nil => intro st; rfl
  | cons n ns ih => intro st; simp [fromtimGo, ih]

/-- Left fold that overwrites on a match computes the last matching row. -/
theorem foldl_overwrite (rcv bk : Option String) :
    ∀ (l : List TelRow) (init : Option String),
      l.foldl (fun tel row =>
        if rowMatches rcv bk row then some row.name else tel) init =
        lastMatchResolve l rcv bk init := by
  intro l
  induction l with
  | nil => intro init; rfl
  | cons x xs ih =>
      intro init
      simp only [List.foldl_cons]
      rw [ih]
      unfold lastMatchResolve
      by_cases hx : rowMatches rcv bk x
      · simp only [hx, if_true, List.filter_cons, List.getLast?_cons]
        cases h : (xs.filter (rowMatches rcv bk)).getLast? with
        | none =>
            have hnil : xs.filter (rowMatches rcv bk) = [] :=
              List.getLast?_eq_none_iff.mp h
            simp [hnil]
        | some r => simp [h]
      · simp only [hx, if_false, List.filter_cons]
        simp [hx]

/-- With pairwise-distinct telescope names, looking a row's name back up in
the table returns that row. -/
theorem lookupRow_self (table : List TelRow)
    (h : (table.map TelRow.name).Nodup) :
    ∀ r ∈ table, lookupRow table r.name = some r := by
  induction table with
  | nil => intro r hr; cases hr
  | cons x xs ih =>
      rw [List.map_cons] at h
      rcases List.nodup_cons.mp h with ⟨hx, hxs⟩
      intro r hr
      rcases List.mem_cons.mp hr with hr | hr
      · subst hr
        simp [lookupRow, List.find?_cons_of_pos]
      · have hne : (x.name == r.name) = false := by
          rw [beq_eq_false_iff_ne]
          intro hc
          exact hx (hc ▸ List.mem_map.mpr ⟨r, hr, rfl⟩)
        unfold lookupRow
        rw [List.find?_cons_of_neg _ (by simp [hne])]
        exact ih hxs r hr

/-- With pairwise-distinct telescope names, the name-column scan with
per-name row lookup is the direct scan over the rows. -/
theorem resolveTelescope_eq_rows (table : List TelRow)
    (rcv bk d : Option String) (h : (table.map TelRow.name).Nodup) :
    resolveTelescope table rcv bk d =
      table.foldl (fun tel row =>
        if rowMatches rcv bk row then some row.name else tel) d := by
  have hsub : ∀ (sub : List TelRow) (init : Option String),
      (∀ r ∈ sub, lookupRow table r.name = some r) →
      (sub.map TelRow.name).foldl (fun tel telname =>
          match lookupRow table telname with
          | some row => if rowMatches rcv bk row then some telname else tel
          | none => tel) init =
        sub.foldl (fun tel row =>
          if rowMatches rcv bk row then some row.name else tel) init := by
    intro sub
    induction sub with
    | nil => intro init _; rfl
    | cons x xs ih =>
        intro init hall
        simp only [List.map_cons, List.foldl_cons]
        rw [hall x (List.mem_cons_self x xs)]
        exact ih _ (fun r hr => hall r (List.mem_cons_of_mem x hr))
  exact hsub table d (lookupRow_self table h)

/-- On a singleton group whose TOA carries all four flags, the `fromtim`
loop body emits the same record as the `tim2csv` loop body, whatever the
incoming fill state, provided `fromtim`'s telescope fallback is `None`. -/
theorem processGroup_eq_processGroup2_singleton (cfg : Config)
    (table : List TelRow) (st : FillState) (t : TOA)
    (htel : cfg.telescope = none)
    (hd : (lookupF t cfg.durationflag).isSome)
    (hr : (lookupS t cfg.receiverflag).isSome)
    (hb : (lookupS t cfg.backendflag).isSome)
    (hp : (lookupS t cfg.projectflag).isSome) :
    (processGroup cfg table st [t]).2 = processGroup2 (argsOf cfg) table [t] := by
  rcases Option.isSome_iff_exists.mp hd with ⟨dv, hdv⟩
  rcases Option.isSome_iff_exists.mp hr with ⟨rv, hrv⟩
  rcases Option.isSome_iff_exists.mp hb with ⟨bv, hbv⟩
  rcases Option.isSome_iff_exists.mp hp with ⟨pv, hpv⟩
  simp [processGroup, processGroup2, durVals, firstFlag, qSum, qMax, argsOf,
    hdv, hrv, hbv, hpv, htel]

/-- Under the singleton-group, all-flags-present hypothesis, the emitted
records of the `fromtim` loop coincide name-by-name with those of the
`tim2csv` loop. -/
theorem fromtimGo_eq_tim2csv (cfg : Config) (table : List TelRow)
    (toas : List TOA) (htel : cfg.telescope = none) :
    ∀ (ns : List String) (st : FillState),
      (∀ n ∈ ns, (groupOf toas n).length = 1 ∧
        ∀ t ∈ groupOf toas n,
          (lookupF t cfg.durationflag).isSome ∧
          (lookupS t cfg.receiverflag).isSome ∧
          (lookupS t cfg.backendflag).isSome ∧
          (lookupS t cfg.projectflag).isSome) →
      (fromtimGo cfg table toas ns st).filterMap Prod.snd =
        ns.filterMap (fun n => processGroup2 (argsOf cfg) table (groupOf toas n)) := by
  intro ns
  induction ns with
  | nil => intro st _; rfl
  | cons n ns ih =>
      intro st hall
      rcases hall n (List.mem_cons_self n ns) with ⟨hlen, hflags⟩
      rcases List.length_eq_one.mp hlen with ⟨t, hg⟩
      rcases hflags t (hg ▸ List.mem_singleton_self t) with ⟨hd, hr, hb, hp⟩
      have heq : (processGroup cfg table st (groupOf toas n)).2 =
          processGroup2 (argsOf cfg) table (groupOf toas n) := by
        rw [hg]
        exact processGroup_eq_processGroup2_singleton cfg table st t htel hd hr hb hp
      simp only [fromtimGo, List.filterMap_cons, heq]
      rw [ih _ (fun m hm => hall m (List.mem_cons_of_mem n hm))]

/-! ### Claims about the aggregation routines -/

/-- C1: each routine partitions the TOAs into groups by the `name` flag and
derives, for every emitted record, the frequency as the arithmetic mean of
the group's `freq` column, the start as the minimum MJD of the group, and
the stop as start plus the duration derived from the group's duration-flag
values (their sum in `fromtim`, their maximum in `tim2csv`, each filled
from the current fill value where the flag is missing). -/
theorem aggregation_per_group :
    (∀ (cfg : Config) (table : List TelRow) (toas : List TOA) (r : Record),
      r ∈ fromtimRecords cfg table toas →
      ∃ (name : String) (st : FillState),
        name ∈ uniqueNames toas ∧ groupOf toas name ≠ [] ∧
        r.frequency = qMean ((groupOf toas name).map TOA.freq) ∧
        r.start = qMin ((groupOf toas name).map TOA.mjd) ∧
        r.stop = r.start +
          qSum (durVals cfg.durationflag st.duration (groupOf toas name)) / 86400) ∧
    (∀ (args : Args) (table : List TelRow) (toas : List TOA) (r : Record),
      r ∈ tim2csvRecords args table toas →
      ∃ (name : String),
        name ∈ uniqueNames toas ∧ groupOf toas name ≠ [] ∧
        r.frequency = qMean ((groupOf toas name).map TOA.freq) ∧
        r.start = qMin ((groupOf toas name).map TOA.mjd) ∧
        r.stop = r.start +
          qMax (durVals args.durationflag args.duration (groupOf toas name)) / 86400) := by
  constructor
  · intro cfg table toas r h
    rcases mem_fromtimRecords cfg table toas r h with ⟨name, st, hmem, hpg⟩
    rcases processGroup_some_fields cfg table st _ r hpg with
      ⟨hf, hs, hst, _⟩
    exact ⟨name, st, hmem,
      groupOf_ne_nil toas name ((mem_uniqueNames toas name).mp hmem),
      hf, hs, by rw [hst, hs]⟩
  · intro args table toas r h
    unfold tim2csvRecords at h
    rcases List.mem_filterMap.mp h with ⟨name, hmem, hpg⟩
    rcases processGroup2_some_fields args table _ r hpg with ⟨hf, hs, hst⟩
    exact ⟨name, hmem,
      groupOf_ne_nil toas name ((mem_uniqueNames toas name).mp hmem),
      hf, hs, by rw [hst, hs]⟩

/-- Witness for C1: the concrete single-group file `toasW` produces `recW`,
whose fields satisfy the aggregation equations. -/
theorem aggregation_per_group_witness :
    recW ∈ fromtimRecords cfgX tableX toasW ∧
    (∃ (name : String) (st : FillState),
      name ∈ uniqueNames toasW ∧ groupOf toasW name ≠ [] ∧
      recW.frequency = qMean ((groupOf toasW name).map TOA.freq) ∧
      recW.start = qMin ((groupOf toasW name).map TOA.mjd) ∧
      recW.stop = recW.start +
        qSum (durVals cfgX.durationflag st.duration (groupOf toasW name)) / 86400) := by
  have hrec : fromtimRecords cfgX tableX toasW = [recW] := by
    simp [fromtimRecords, groupOutcomes, fromtimGo, processGroup, uniqueNames,
      namesOf, toasW, cfgX, tableX, recW, List.insertionSort,
      List.orderedInsert, strLe, strLeB, groupOf, qMean, qSum, qMin, durVals,
      firstFlag, lookupS, lookupF, resolveTelescope, lookupRow, rowMatches,
      optMem, initState, List.find?]
  refine ⟨?_, aggregation_per_group.1 cfgX tableX toasW recW ?_⟩ <;>
    rw [hrec] <;> exact List.mem_singleton_self recW

/-- C2 counterexample: on a two-TOA group carrying 100 s duration flags,
`fromtim` (which sums the duration values) and `tim2csv` (which takes their
maximum) produce different records: stop times 200 s and 100 s past start. -/
theorem fromtim_tim2csv_disagree :
    fromtimRecords cfgX tableX toasX ≠ tim2csvRecords (argsOf cfgX) tableX toasX ∧
    (fromtimRecords cfgX tableX toasX).map Record.stop = [59000 + 200 / 86400] ∧
    (tim2csvRecords (argsOf cfgX) tableX toasX).map Record.stop =
      [59000 + 100 / 86400] := by
  have h1 : (fromtimRecords cfgX tableX toasX).map Record.stop =
      [59000 + 200 / 86400] := by
    simp [fromtimRecords, groupOutcomes, fromtimGo, processGroup, uniqueNames,
      namesOf, toasX, cfgX, tableX, List.insertionSort, List.orderedInsert,
      strLe, strLeB, groupOf, qMean, qSum, qMin, durVals, firstFlag, lookupS,
      lookupF, resolveTelescope, lookupRow, rowMatches, optMem, initState,
      List.find?]
    norm_num
  have h2 : (tim2csvRecords (argsOf cfgX) tableX toasX).map Record.stop =
      [59000 + 100 / 86400] := by
    simp [tim2csvRecords, processGroup2, uniqueNames, namesOf, toasX, cfgX,
      argsOf, tableX, List.insertionSort, List.orderedInsert, strLe, strLeB,
      groupOf, qMean, qSum, qMax, qMin, durVals, firstFlag, lookupS, lookupF,
      resolveTelescope, lookupRow, rowMatches, optMem, List.find?]
  refine ⟨?_, h1, h2⟩
  intro hc
  have := congrArg (List.map Record.stop) hc
  rw [h1, h2] at this
  have hstop : (59000 + 200 / 86400 : ℚ) = 59000 + 100 / 86400 := by
    injection this
  norm_num at hstop

/-- C2 amended: the two routines agree when every observation group is a
single TOA carrying duration, receiver, backend and project flags and
`fromtim`'s telescope fallback is `None`; in general they differ because
`fromtim` sums the per-TOA duration values where `tim2csv` takes their
maximum, `fromtim` threads resolved fill values into later groups where
`tim2csv` reuses the caller-supplied fills, and only `fromtim` has a
caller-supplied telescope fallback. -/
theorem fromtim_refines_tim2csv_on_singletons :
    ∀ (cfg : Config) (table : List TelRow) (toas : List TOA),
      cfg.telescope = none →
      (∀ n ∈ uniqueNames toas, (groupOf toas n).length = 1 ∧
        ∀ t ∈ groupOf toas n,
          (lookupF t cfg.durationflag).isSome ∧
          (lookupS t cfg.receiverflag).isSome ∧
          (lookupS t cfg.backendflag).isSome ∧
          (lookupS t cfg.projectflag).isSome) →
      fromtimRecords cfg table toas = tim2csvRecords (argsOf cfg) table toas := by
  intro cfg table toas htel hall
  unfold fromtimRecords groupOutcomes tim2csvRecords
  exact fromtimGo_eq_tim2csv cfg table toas htel (uniqueNames toas)
    (initState cfg) hall

/-- Witness for the amended C2 at the concrete singleton file `toasW`. -/
theorem fromtim_refines_tim2csv_witness :
    cfgX.telescope = none ∧
    (∀ n ∈ uniqueNames toasW, (groupOf toasW n).length = 1 ∧
      ∀ t ∈ groupOf toasW n,
        (lookupF t cfgX.durationflag).isSome ∧
        (lookupS t cfgX.receiverflag).isSome ∧
        (lookupS t cfgX.backendflag).isSome ∧
        (lookupS t cfgX.projectflag).isSome) ∧
    fromtimRecords cfgX tableX toasW = tim2csvRecords (argsOf cfgX) tableX toasW :=
  ⟨by decide, by decide,
    fromtim_refines_tim2csv_on_singletons cfgX tableX toasW (by decide) (by decide)⟩

/-- C3 counterexample: with two table rows of the same telescope name where
only the second matches, the claimed last-matching-row rule assigns `T`,
but the code's scan looks each name up as its first row, finds no match,
and falls back to the default `None`, dropping the record. -/
theorem telescope_scan_duplicate_names_cex :
    lastMatchResolve tableDup (some "R") (some "B") none = some "T" ∧
    resolveTelescope tableDup (some "R") (some "B") none = none := by
  refine ⟨by decide, by decide⟩

/-- C3 amended: provided the table's telescope names are pairwise distinct
(the scan looks each name up as its first row, so duplicate names are not
resolved by row), the scan assigns the last matching row's name in table
order, with a row matching when it contains the group's receiver among its
receivers and the group's backend among its backends, and yields the
caller-supplied default when no row matches; a group whose telescope stays
`None` produces no record. -/
theorem telescope_resolution_scan :
    (∀ (table : List TelRow) (rcv bk d : Option String),
      (table.map TelRow.name).Nodup →
      resolveTelescope table rcv bk d = lastMatchResolve table rcv bk d) ∧
    (∀ (cfg : Config) (table : List TelRow) (st : FillState) (g : List TOA),
      (processGroup cfg table st g).2 = none ↔
        resolveTelescope table (firstFlag cfg.receiverflag st.receiver g)
          (firstFlag cfg.backendflag st.backend g) cfg.telescope = none) := by
  constructor
  · intro table rcv bk d h
    rw [resolveTelescope_eq_rows table rcv bk d h, foldl_overwrite]
  · exact processGroup_none_iff

/-- Witness for the amended C3: on a distinct-name table where both rows
match, the scan returns the last one (`AO`). -/
theorem telescope_resolution_scan_witness :
    resolveTelescope tableNodup (some "R1") (some "B1") none =
      lastMatchResolve tableNodup (some "R1") (some "B1") none ∧
    lastMatchResolve tableNodup (some "R1") (some "B1") none = some "AO" :=
  ⟨telescope_resolution_scan.1 tableNodup (some "R1") (some "B1") none
      (by decide),
    by decide⟩

/-- C5: the string `fromtim` returns is the header line followed by the
rendered rows of exactly the emitted records: the loop visits each unique
observation name once, and an iteration contributes a row precisely when
its group's telescope resolved to a non-`None` value. -/
theorem fromtim_output_structure :
    ∀ (cfg : Config) (table : List TelRow) (toas : List TOA),
      fromtimOut cfg table toas =
        header ++ concatRows (fromtimRecords cfg table toas) ∧
      (groupOutcomes cfg table toas).map Prod.fst = uniqueNames toas ∧
      fromtimRecords cfg table toas =
        (groupOutcomes cfg table toas).filterMap Prod.snd ∧
      ∀ (st : FillState) (g : List TOA),
        ((processGroup cfg table st g).2.isSome ↔
          (resolveTelescope table (firstFlag cfg.receiverflag st.receiver g)
            (firstFlag cfg.backendflag st.backend g) cfg.telescope).isSome) := by
  intro cfg table toas
  refine ⟨?_, fromtimGo_names cfg table toas _ _, rfl, ?_⟩
  · unfold fromtimOut fromtimRecords groupOutcomes
    rw [fromtimGoStr_eq]
  · intro st g
    rw [← Option.ne_none_iff_isSome, ← Option.ne_none_iff_isSome]
    exact not_congr (processGroup_none_iff cfg table st g)

/-- C8: the caller-supplied fills apply only to the first iteration: the
loop starts from the caller's values, each iteration's output state holds
the values resolved for that group (`duration` the summed duration,
`receiver`/`backend`/`project` the first-TOA flag values or the incoming
fill), the next iteration consumes that state, and the incoming telescope
plays no role: the telescope candidate is reset to the caller's default
every iteration. -/
theorem fromtim_fill_rebinding :
    ∀ (cfg : Config) (table : List TelRow) (toas : List TOA),
      initState cfg =
        ⟨cfg.duration, cfg.receiver, cfg.backend, cfg.project, cfg.telescope⟩ ∧
      (∀ (st : FillState) (g : List TOA),
        (processGroup cfg table st g).1 =
          ⟨qSum (durVals cfg.durationflag st.duration g),
           firstFlag cfg.receiverflag st.receiver g,
           firstFlag cfg.backendflag st.backend g,
           firstFlag cfg.projectflag st.project g,
           resolveTelescope table (firstFlag cfg.receiverflag st.receiver g)
             (firstFlag cfg.backendflag st.backend g) cfg.telescope⟩) ∧
      (∀ (st : FillState) (t : Option String) (g : List TOA),
        processGroup cfg table ⟨st.duration, st.receiver, st.backend,
          st.project, t⟩ g = processGroup cfg table st g) ∧
      (∀ (n : String) (ns : List String) (st : FillState),
        fromtimGo cfg table toas (n :: ns) st =
          (n, (processGroup cfg table st (groupOf toas n)).2) ::
            fromtimGo cfg table toas ns
              (processGroup cfg table st (groupOf toas n)).1) ∧
      groupOutcomes cfg table toas =
        fromtimGo cfg table toas (uniqueNames toas) (initState cfg) := by
  intro cfg table toas
  exact ⟨rfl, fun st g => rfl, fun st t g => rfl, fun n ns st => rfl, rfl⟩

end Pulsardb
